import Mathlib

/-!
Verification development for the Pyfilecleaner repository.

The authoritative code is `src/service/filecleaner.py` (class `FileCleaner`).
We embed its pure decision logic and its traversal algorithm shallowly:

* Timestamps are integers counting seconds; `timedelta(hours=h)` is `h * 3600`
  seconds, and `datetime` comparison is integer comparison.
* The filesystem seen by one run is a finite tree of entries.  Each entry
  carries the outcome of the OS calls the cleaner may perform on it, as
  Boolean oracles: `statFails` (reading the mtime raises `OSError`),
  `unlinkFails` (`Path.unlink` raises), `rmdirFails` (`Path.rmdir` raises),
  `rmtreeFails` (`shutil.rmtree` raises).  A failed `rmtree` is modelled as
  leaving the subtree in place; per the source, a failure never increments
  any `deleted` counter.
* The per-run result dictionary becomes the `DirectoryResult` structure.
-/

namespace Pyfilecleaner

/-- Index of the last occurrence of `'.'` in a character list, scanning from
position `i` (models `str.rfind('.')` as used by `pathlib.PurePath.suffix`). -/
def rfindDotAux : List Char → Nat → Option Nat
  | [], _ => none
  | c :: cs, i =>
    match rfindDotAux cs (i + 1) with
    | some j => some j
    | none => if c = '.' then some i else none

/-- Python `pathlib.Path(name).suffix` for a final path component `name`:
the substring from the last dot onward, provided that dot is neither the
first character nor the last one; otherwise the empty string. -/
def pySuffix (name : String) : String :=
  let cs := name.data
  match rfindDotAux cs 0 with
  | none => ""
  | some i => if 0 < i && i < cs.length - 1 then String.mk (cs.drop i) else ""

/-- Python `str.lower()` (ASCII-faithful, which covers every extension the
configuration format produces). -/
def pyLower (s : String) : String := String.mk (s.data.map Char.toLower)

/-- Python `str.lstrip('.')`: drop every leading dot. -/
def lstripDots (s : String) : String := String.mk (s.data.dropWhile (fun c => c = '.'))

/-- `file_path.suffix.lower().lstrip('.')` from `_should_delete_file`. -/
def fileExtensionOf (name : String) : String := lstripDots (pyLower (pySuffix name))

/-- The engine state fixed at construction: the parsed extension filter list,
the cutoff age in hours (`file_cleanup_hour`) and the run-anchored clock
(`app_start_time`, a timestamp in seconds). -/
structure FileCleaner where
  target_extensions : List String
  file_cleanup_hour : Int
  app_start_time : Int

/-- `self.app_start_time - timedelta(hours=self.file_cleanup_hour)`. -/
def cutoffTime (c : FileCleaner) : Int := c.app_start_time - c.file_cleanup_hour * 3600

/-- `FileCleaner._is_file_old_enough`: on a stat failure the `except` branch
returns `False`; otherwise the file is old enough iff its modification time is
strictly below the cutoff. -/
def is_file_old_enough (c : FileCleaner) (statFails : Bool) (mtime : Int) : Bool :=
  if statFails then false
  else decide (mtime < cutoffTime c)

/-- `FileCleaner._should_delete_file`: extension match (universal when `'*'`
is in the filter list, else membership of the lowercased dot-stripped final
suffix), and then the age check. -/
def should_delete_file (c : FileCleaner) (name : String) (statFails : Bool) (mtime : Int) :
    Bool :=
  let extension_match :=
    if c.target_extensions.contains "*" then true
    else c.target_extensions.contains (fileExtensionOf name)
  if !extension_match then false
  else is_file_old_enough c statFails mtime

mutual
/-- One filesystem entry: a file with its name, mtime and OS-call oracles, or
a directory with its children and OS-call oracles. -/
inductive Entry where
  | file (name : String) (mtime : Int) (statFails : Bool) (unlinkFails : Bool)
  | dir (name : String) (children : EntryList) (rmdirFails : Bool) (rmtreeFails : Bool)

/-- A directory listing, in filesystem order. -/
inductive EntryList where
  | nil
  | cons (e : Entry) (es : EntryList)
end

/-- The `result` dictionary of `clean_directory`, field order as in the source. -/
structure DirectoryResult where
  deleted_files : Nat
  deleted_dirs : Nat
  failed_files : Nat
  failed_dirs : Nat
  skipped_files : Nat

def DirectoryResult.zero : DirectoryResult := ⟨0, 0, 0, 0, 0⟩

/-- Pointwise sum of two result dictionaries (the `result[k] += sub_result[k]`
accumulation pattern of the source). -/
def DirectoryResult.add (a b : DirectoryResult) : DirectoryResult :=
  ⟨a.deleted_files + b.deleted_files, a.deleted_dirs + b.deleted_dirs,
   a.failed_files + b.failed_files, a.failed_dirs + b.failed_dirs,
   a.skipped_files + b.skipped_files⟩

def oneDeletedFile : DirectoryResult := ⟨1, 0, 0, 0, 0⟩
def oneDeletedDir : DirectoryResult := ⟨0, 1, 0, 0, 0⟩
def oneFailedFile : DirectoryResult := ⟨0, 0, 1, 0, 0⟩
def oneFailedDir : DirectoryResult := ⟨0, 0, 0, 1, 0⟩
def oneSkippedFile : DirectoryResult := ⟨0, 0, 0, 0, 1⟩

/-- Prepend a surviving entry (if any) to a listing. -/
def consOpt : Option Entry → EntryList → EntryList
  | none, es => es
  | some e, es => .cons e es

def EntryList.isEmpty : EntryList → Bool
  | .nil => true
  | .cons _ _ => false

mutual
/-- The body of the `for item in directory.iterdir()` loop of
`FileCleaner._clean_directory_recursive`, together with the post-order
empty-directory removal that the same function applies to each directory it
recurses into.  Returns the counter contribution and the surviving entry
(`none` when the entry was removed).  A file is deleted when
`_should_delete_file` holds and `unlink` succeeds, counted failed when
`unlink` raises, and skipped otherwise.  A directory first has its children
processed recursively; then `if not any(directory.iterdir()): directory.rmdir()`
removes it when the re-listed contents are empty and `rmdir` succeeds, while
the `except OSError` branch only logs (no counter changes). -/
def clean_item_recursive (c : FileCleaner) : Entry → DirectoryResult × Option Entry
  | .file name mtime sf uf =>
    if should_delete_file c name sf mtime then
      if uf then (oneFailedFile, some (.file name mtime sf uf))
      else (oneDeletedFile, none)
    else (oneSkippedFile, some (.file name mtime sf uf))
  | .dir name children rf tf =>
    if (clean_list_recursive c children).2.isEmpty then
      if rf then
        ((clean_list_recursive c children).1,
         some (.dir name (clean_list_recursive c children).2 rf tf))
      else ((clean_list_recursive c children).1.add oneDeletedDir, none)
    else
      ((clean_list_recursive c children).1,
       some (.dir name (clean_list_recursive c children).2 rf tf))

/-- Processing of a directory listing by `_clean_directory_recursive`:
each entry is visited exactly once, in order, and the counter contributions
are accumulated. -/
def clean_list_recursive (c : FileCleaner) : EntryList → DirectoryResult × EntryList
  | .nil => (DirectoryResult.zero, .nil)
  | .cons e es =>
    ((clean_item_recursive c e).1.add (clean_list_recursive c es).1,
     consOpt (clean_item_recursive c e).2 (clean_list_recursive c es).2)
end

/-- The body of the `for item in items` loop of `FileCleaner.clean_directory`:
files are handled exactly as in the recursive cleaner; a child directory is
removed wholesale with `shutil.rmtree` when `'*'` is in the filter list, and
otherwise handed to `_clean_directory_recursive`. -/
def clean_top_item (c : FileCleaner) (e : Entry) : DirectoryResult × Option Entry :=
  match e with
  | .file _ _ _ _ => clean_item_recursive c e
  | .dir name children rf tf =>
    if c.target_extensions.contains "*" then
      if tf then (oneFailedDir, some (.dir name children rf tf))
      else (oneDeletedDir, none)
    else clean_item_recursive c (.dir name children rf tf)

/-- The full `for item in items` loop of `clean_directory` over the snapshot
listing of the root. -/
def clean_top_list (c : FileCleaner) : EntryList → DirectoryResult × EntryList
  | .nil => (DirectoryResult.zero, .nil)
  | .cons e es =>
    ((clean_top_item c e).1.add (clean_top_list c es).1,
     consOpt (clean_top_item c e).2 (clean_top_list c es).2)

/-- The state of one configured root path: missing, existing but not a
directory, or a directory with its listing. -/
inductive RootState where
  | absent
  | notADirectory
  | isDir (children : EntryList)

/-- `FileCleaner.clean_directory`: an absent root or a non-directory root
yields the all-zero result and no filesystem change; otherwise the snapshot
listing is processed and the root itself always remains a directory. -/
def clean_directory (c : FileCleaner) : RootState → DirectoryResult × RootState
  | .absent => (DirectoryResult.zero, .absent)
  | .notADirectory => (DirectoryResult.zero, .notADirectory)
  | .isDir cs => ((clean_top_list c cs).1, .isDir (clean_top_list c cs).2)

mutual
/-- Number of file entries in a subtree (each one visited by the filtered-mode
recursion). -/
def totalFiles : Entry → Nat
  | .file _ _ _ _ => 1
  | .dir _ cs _ _ => totalFilesList cs

/-- Number of file entries below a listing. -/
def totalFilesList : EntryList → Nat
  | .nil => 0
  | .cons e es => totalFiles e + totalFilesList es
end


mutual
/-- Number of directory entries in a subtree, the subtree's own root
included. -/
def totalDirs : Entry → Nat
  | .file _ _ _ _ => 0
  | .dir _ cs _ _ => 1 + totalDirsList cs

/-- Number of directory entries below a listing. -/
def totalDirsList : EntryList → Nat
  | .nil => 0
  | .cons e es => totalDirs e + totalDirsList es
end


/-- Files processed when `clean_directory` handles one direct child of the
root: a file is always processed; a child directory's files are processed only
in filtered mode (wildcard mode removes the subtree without evaluating them). -/
def filesProcessedTop (c : FileCleaner) : Entry → Nat
  | .file _ _ _ _ => 1
  | .dir _ cs _ _ => if c.target_extensions.contains "*" then 0 else totalFilesList cs

/-- Files processed across the root's listing. -/
def filesProcessedTopList (c : FileCleaner) : EntryList → Nat
  | .nil => 0
  | .cons e es => filesProcessedTop c e + filesProcessedTopList c es

/-- Directories processed when `clean_directory` handles one direct child of
the root: in wildcard mode only the child itself, in filtered mode every
directory of the subtree. -/
def dirsProcessedTop (c : FileCleaner) : Entry → Nat
  | .file _ _ _ _ => 0
  | .dir _ cs _ _ => if c.target_extensions.contains "*" then 1 else 1 + totalDirsList cs

/-- Directories processed across the root's listing. -/
def dirsProcessedTopList (c : FileCleaner) : EntryList → Nat
  | .nil => 0
  | .cons e es => dirsProcessedTop c e + dirsProcessedTopList c es

mutual
/-- All OS-call oracles in the subtree report success. -/
def cleanFlags : Entry → Bool
  | .file _ _ sf uf => !sf && !uf
  | .dir _ cs rf tf => !rf && !tf && cleanFlagsList cs

/-- All OS-call oracles below a listing report success. -/
def cleanFlagsList : EntryList → Bool
  | .nil => true
  | .cons e es => cleanFlags e && cleanFlagsList es
end


mutual
/-- A subtree on which the filtered-mode recursion acts as the identity:
every file fails `_should_delete_file` and every directory is non-empty. -/
def stable (c : FileCleaner) : Entry → Bool
  | .file name mtime sf _ => !(should_delete_file c name sf mtime)
  | .dir _ cs _ _ => !cs.isEmpty && stableList c cs

/-- A listing of stable entries. -/
def stableList (c : FileCleaner) : EntryList → Bool
  | .nil => true
  | .cons e es => stable c e && stableList c es
end


/-- A direct child of the root on which `clean_directory` acts as the
identity: a file failing `_should_delete_file`, or — in filtered mode only —
a stable directory. -/
def stableTop (c : FileCleaner) : Entry → Bool
  | .file name mtime sf _ => !(should_delete_file c name sf mtime)
  | .dir _ cs _ _ =>
    !(c.target_extensions.contains "*") && !cs.isEmpty && stableList c cs

/-- A root listing of top-stable entries. -/
def stableTopList (c : FileCleaner) : EntryList → Bool
  | .nil => true
  | .cons e es => stableTop c e && stableTopList c es

/-- A result dictionary whose only nonzero counter is `skipped_files`. -/
def skipOnly (k : Nat) : DirectoryResult := ⟨0, 0, 0, 0, k⟩

/-- Number of files reachable from a root state. -/
def rootFiles : RootState → Nat
  | .isDir cs => totalFilesList cs
  | _ => 0

/-- A run of ASCII digits evaluated as a natural number; `none` when empty or
when any character is not a digit. -/
def digitsVal : List Char → Option Nat
  | [] => none
  | cs =>
    if cs.all Char.isDigit then
      some (cs.foldl (fun a ch => a * 10 + (ch.toNat - 48)) 0)
    else none

/-- ASCII whitespace as stripped by Python `int()` before parsing. -/
def isPySpace (ch : Char) : Bool :=
  ch = ' ' || ch = '\t' || ch = '\n' || ch = '\r' || ch = '\x0b' || ch = '\x0c'

/-- Strip leading and trailing whitespace from a character list. -/
def stripChars (cs : List Char) : List Char :=
  ((cs.dropWhile isPySpace).reverse.dropWhile isPySpace).reverse

/-- Python `int(s)` on a decimal string: surrounding whitespace stripped, one
optional sign, then digits (digit-group underscores are not used by this
configuration format); anything else raises `ValueError`, here `none`. -/
def pyIntParse (s : String) : Option Int :=
  match stripChars s.data with
  | '+' :: rest => (digitsVal rest).map (fun n => (n : Int))
  | '-' :: rest => (digitsVal rest).map (fun n => -(n : Int))
  | cs => (digitsVal cs).map (fun n => (n : Int))

/-- Modelled from the spec: `get_config_value` (from `utils/config_manager`,
a module that is not under src/) returns the configured string when the key is
present and the supplied default otherwise. -/
def get_config_value (configured : Option String) (dflt : String) : String :=
  match configured with
  | some v => v
  | none => dflt

/-- The `file_cleanup_hour` assignment of `FileCleaner._load_settings`:
`int(cleanup_hour_str or '24')`, with the `except (ValueError, TypeError)`
branch falling back to 24. -/
def load_cleanup_hour (configured : Option String) : Int :=
  match pyIntParse (if get_config_value configured "24" = "" then "24"
                    else get_config_value configured "24") with
  | some n => n
  | none => 24

/-- Sum of the three per-file counters of a result dictionary. -/
def fileSum (r : DirectoryResult) : Nat := r.deleted_files + r.failed_files + r.skipped_files

/-- Sum of the two per-directory counters of a result dictionary. -/
def dirSum (r : DirectoryResult) : Nat := r.deleted_dirs + r.failed_dirs

@[simp] theorem fileSum_add (a b : DirectoryResult) :
    fileSum (a.add b) = fileSum a + fileSum b := by
  simp only [fileSum, DirectoryResult.add]
  omega

@[simp] theorem dirSum_add (a b : DirectoryResult) :
    dirSum (a.add b) = dirSum a + dirSum b := by
  simp only [dirSum, DirectoryResult.add]
  omega

mutual
theorem fileSum_item (c : FileCleaner) : (e : Entry) →
    fileSum (clean_item_recursive c e).1 = totalFiles e
  | .file name mtime sf uf => by
    simp only [clean_item_recursive, totalFiles]
    split
    · split <;> simp [fileSum, oneFailedFile, oneDeletedFile]
    · simp [fileSum, oneSkippedFile]
  | .dir name cs rf tf => by
    have h := fileSum_list c cs
    simp only [clean_item_recursive, totalFiles]
    split
    · split
      · simpa using h
      · simpa [fileSum, oneDeletedDir, DirectoryResult.add] using h
    · simpa using h

theorem fileSum_list (c : FileCleaner) : (es : EntryList) →
    fileSum (clean_list_recursive c es).1 = totalFilesList es
  | .nil => by simp [clean_list_recursive, totalFilesList, fileSum, DirectoryResult.zero]
  | .cons e es => by
    have h1 := fileSum_item c e
    have h2 := fileSum_list c es
    simp [clean_list_recursive, totalFilesList, h1, h2]
end

mutual
theorem dirSum_item (c : FileCleaner) : (e : Entry) →
    dirSum (clean_item_recursive c e).1 ≤ totalDirs e
  | .file name mtime sf uf => by
    simp only [clean_item_recursive, totalDirs]
    split
    · split <;> simp [dirSum, oneFailedFile, oneDeletedFile]
    · simp [dirSum, oneSkippedFile]
  | .dir name cs rf tf => by
    have h := dirSum_list c cs
    simp only [clean_item_recursive, totalDirs]
    split
    · split
      · dsimp only
        omega
      · dsimp only
        simp only [dirSum_add]
        have hone : dirSum oneDeletedDir = 1 := rfl
        omega
    · dsimp only
      omega

theorem dirSum_list (c : FileCleaner) : (es : EntryList) →
    dirSum (clean_list_recursive c es).1 ≤ totalDirsList es
  | .nil => by simp [clean_list_recursive, totalDirsList, dirSum, DirectoryResult.zero]
  | .cons e es => by
    have h1 := dirSum_item c e
    have h2 := dirSum_list c es
    simp only [clean_list_recursive, totalDirsList, dirSum_add]
    omega
end

theorem fileSum_top_item (c : FileCleaner) (e : Entry) :
    fileSum (clean_top_item c e).1 = filesProcessedTop c e := by
  match e with
  | .file name mtime sf uf =>
    have h := fileSum_item c (.file name mtime sf uf)
    simpa [clean_top_item, filesProcessedTop, totalFiles] using h
  | .dir name cs rf tf =>
    have h := fileSum_item c (.dir name cs rf tf)
    simp only [clean_top_item, filesProcessedTop]
    split
    · split <;> simp [fileSum, oneFailedDir, oneDeletedDir]
    · simpa [totalFiles] using h

theorem fileSum_top_list (c : FileCleaner) : (es : EntryList) →
    fileSum (clean_top_list c es).1 = filesProcessedTopList c es
  | .nil => by simp [clean_top_list, filesProcessedTopList, fileSum, DirectoryResult.zero]
  | .cons e es => by
    have h := fileSum_top_item c e
    have ih := fileSum_top_list c es
    simp [clean_top_list, filesProcessedTopList, h, ih]

theorem dirSum_top_item (c : FileCleaner) (e : Entry) :
    dirSum (clean_top_item c e).1 ≤ dirsProcessedTop c e := by
  match e with
  | .file name mtime sf uf =>
    have h := dirSum_item c (.file name mtime sf uf)
    simpa [clean_top_item, dirsProcessedTop, totalDirs] using h
  | .dir name cs rf tf =>
    have h := dirSum_item c (.dir name cs rf tf)
    simp only [clean_top_item, dirsProcessedTop]
    split
    · split <;> simp [dirSum, oneFailedDir, oneDeletedDir]
    · simpa [totalDirs] using h

theorem dirSum_top_list (c : FileCleaner) : (es : EntryList) →
    dirSum (clean_top_list c es).1 ≤ dirsProcessedTopList c es
  | .nil => by simp [clean_top_list, dirsProcessedTopList, dirSum, DirectoryResult.zero]
  | .cons e es => by
    have h := dirSum_top_item c e
    have ih := dirSum_top_list c es
    simp only [clean_top_list, dirsProcessedTopList, dirSum_add]
    omega

mutual
theorem stable_fix_item (c : FileCleaner) : (e : Entry) → stable c e = true →
    clean_item_recursive c e = (skipOnly (totalFiles e), some e)
  | .file name mtime sf uf => fun h => by
    simp only [stable, Bool.not_eq_true'] at h
    simp [clean_item_recursive, h, totalFiles, skipOnly, oneSkippedFile]
  | .dir name cs rf tf => fun h => by
    simp only [stable, Bool.and_eq_true, Bool.not_eq_true'] at h
    have hfix := stable_fix_list c cs h.2
    simp [clean_item_recursive, hfix, h.1, totalFiles]

theorem stable_fix_list (c : FileCleaner) : (es : EntryList) → stableList c es = true →
    clean_list_recursive c es = (skipOnly (totalFilesList es), es)
  | .nil => fun _ => by
    simp [clean_list_recursive, totalFilesList, skipOnly, DirectoryResult.zero]
  | .cons e es => fun h => by
    simp only [stableList, Bool.and_eq_true] at h
    have h1 := stable_fix_item c e h.1
    have h2 := stable_fix_list c es h.2
    simp [clean_list_recursive, h1, h2, consOpt, totalFilesList, skipOnly,
      DirectoryResult.add]
end

mutual
theorem post_stable_item (c : FileCleaner) : (e : Entry) → cleanFlags e = true →
    ∀ e', (clean_item_recursive c e).2 = some e' →
      stable c e' = true ∧ cleanFlags e' = true
  | .file name mtime sf uf => fun h e' he' => by
    simp only [cleanFlags, Bool.and_eq_true, Bool.not_eq_true'] at h
    by_cases hs : should_delete_file c name sf mtime = true
    · simp [clean_item_recursive, hs, h.2] at he'
    · simp only [Bool.not_eq_true] at hs
      simp only [clean_item_recursive, hs, Bool.false_eq_true, if_false,
        Option.some.injEq] at he'
      subst he'
      constructor
      · simp [stable, hs]
      · simp [cleanFlags, h.1, h.2]
  | .dir name cs rf tf => fun h e' he' => by
    simp only [cleanFlags, Bool.and_eq_true, Bool.not_eq_true'] at h
    have hlist := post_stable_list c cs h.2
    by_cases hemp : (clean_list_recursive c cs).2.isEmpty = true
    · simp [clean_item_recursive, hemp, h.1.1] at he'
    · simp only [Bool.not_eq_true] at hemp
      simp only [clean_item_recursive, hemp, Bool.false_eq_true, if_false,
        Option.some.injEq] at he'
      subst he'
      constructor
      · simp [stable, hemp, hlist.1]
      · simp [cleanFlags, h.1.1, h.1.2, hlist.2]

theorem post_stable_list (c : FileCleaner) : (es : EntryList) → cleanFlagsList es = true →
    stableList c (clean_list_recursive c es).2 = true ∧
      cleanFlagsList (clean_list_recursive c es).2 = true
  | .nil => fun _ => by simp [clean_list_recursive, stableList, cleanFlagsList]
  | .cons e es => fun h => by
    simp only [cleanFlagsList, Bool.and_eq_true] at h
    have htail := post_stable_list c es h.2
    simp only [clean_list_recursive]
    cases he : (clean_item_recursive c e).2 with
    | none => simpa [consOpt] using htail
    | some e' =>
      have hhead := post_stable_item c e h.1 e' he
      simp [consOpt, stableList, cleanFlagsList, hhead.1, hhead.2, htail.1, htail.2]
end

theorem post_stable_top_item (c : FileCleaner) (e : Entry) (h : cleanFlags e = true) :
    ∀ e', (clean_top_item c e).2 = some e' → stableTop c e' = true := by
  intro e' he'
  match e with
  | .file name mtime sf uf =>
    have hpost := post_stable_item c (.file name mtime sf uf) h e' (by
      simpa [clean_top_item] using he')
    rcases hpost with ⟨hst, _⟩
    match e' with
    | .file name' mtime' sf' uf' => simpa [stableTop] using (by simpa [stable] using hst)
    | .dir name' cs' rf' tf' =>
      -- a file entry can only survive as a file
      by_cases hs : should_delete_file c name sf mtime = true
      · simp only [cleanFlags, Bool.and_eq_true, Bool.not_eq_true'] at h
        simp [clean_top_item, clean_item_recursive, hs, h.2] at he'
      · simp only [Bool.not_eq_true] at hs
        simp [clean_top_item, clean_item_recursive, hs] at he'
  | .dir name cs rf tf =>
    simp only [cleanFlags, Bool.and_eq_true, Bool.not_eq_true'] at h
    by_cases hw : c.target_extensions.contains "*" = true
    · have hwm : "*" ∈ c.target_extensions := by simpa using hw
      simp [clean_top_item, hwm, h.1.2] at he'
    · simp only [Bool.not_eq_true] at hw
      have hwm : "*" ∉ c.target_extensions := by simpa using hw
      have hlist := post_stable_list c cs h.2
      by_cases hemp : (clean_list_recursive c cs).2.isEmpty = true
      · simp [clean_top_item, clean_item_recursive, hwm, hemp, h.1.1] at he'
      · simp only [Bool.not_eq_true] at hemp
        simp only [clean_top_item, hw, Bool.false_eq_true, if_false,
          clean_item_recursive, hemp, Option.some.injEq] at he'
        subst he'
        simp [stableTop, hw, hemp, hlist.1, hwm]

theorem post_stable_top_list (c : FileCleaner) : (es : EntryList) →
    cleanFlagsList es = true → stableTopList c (clean_top_list c es).2 = true
  | .nil => fun _ => by simp [clean_top_list, stableTopList]
  | .cons e es => fun h => by
    simp only [cleanFlagsList, Bool.and_eq_true] at h
    have htail := post_stable_top_list c es h.2
    simp only [clean_top_list]
    cases he : (clean_top_item c e).2 with
    | none => simpa [consOpt] using htail
    | some e' =>
      have hhead := post_stable_top_item c e h.1 e' he
      simp [consOpt, stableTopList, hhead, htail]

theorem stable_fix_top_item (c : FileCleaner) (e : Entry) (h : stableTop c e = true) :
    clean_top_item c e = (skipOnly (totalFiles e), some e) := by
  match e with
  | .file name mtime sf uf =>
    have := stable_fix_item c (.file name mtime sf uf) (by simpa [stableTop, stable] using h)
    simpa [clean_top_item] using this
  | .dir name cs rf tf =>
    simp only [stableTop, Bool.and_eq_true, Bool.not_eq_true'] at h
    have hwm : "*" ∉ c.target_extensions := by simpa using h.1.1
    have := stable_fix_item c (.dir name cs rf tf)
      (by simp [stable, h.1.2, h.2])
    simpa [clean_top_item, h.1.1, hwm] using this

theorem stable_fix_top_list (c : FileCleaner) : (es : EntryList) →
    stableTopList c es = true →
    clean_top_list c es = (skipOnly (totalFilesList es), es)
  | .nil => fun _ => by
    simp [clean_top_list, totalFilesList, skipOnly, DirectoryResult.zero]
  | .cons e es => fun h => by
    simp only [stableTopList, Bool.and_eq_true] at h
    have h1 := stable_fix_top_item c e h.1
    have h2 := stable_fix_top_list c es h.2
    simp [clean_top_list, h1, h2, consOpt, totalFilesList, skipOnly, DirectoryResult.add]

/-- Claim C1: for a file whose timestamp is readable, `_should_delete_file`
returns true iff its modification time is strictly below
`app_start_time - file_cleanup_hour` and the extension filter matches (the
wildcard marker is present, or the lowercased dot-stripped final extension is
a member of the filter list); and at exactly the cutoff instant the decision
is false, so such a file is never deleted. -/
theorem should_delete_file_spec (c : FileCleaner) (name : String) (mtime : Int) :
    (should_delete_file c name false mtime = true ↔
      (mtime < c.app_start_time - c.file_cleanup_hour * 3600 ∧
        (c.target_extensions.contains "*" = true ∨
         c.target_extensions.contains (fileExtensionOf name) = true))) ∧
    should_delete_file c name false (c.app_start_time - c.file_cleanup_hour * 3600) =
      false := by
  have hchar : ∀ m : Int, should_delete_file c name false m =
      ((c.target_extensions.contains "*" ||
        c.target_extensions.contains (fileExtensionOf name)) &&
       decide (m < cutoffTime c)) := by
    intro m
    simp only [should_delete_file, is_file_old_enough]
    by_cases hw : c.target_extensions.contains "*" = true
    · rw [hw]
      simp
    · rw [Bool.not_eq_true] at hw
      rw [hw]
      simp
  constructor
  · rw [hchar]
    simp only [Bool.and_eq_true, Bool.or_eq_true, decide_eq_true_eq, cutoffTime]
    exact and_comm
  · rw [hchar]
    have hirr : decide (c.app_start_time - c.file_cleanup_hour * 3600 < cutoffTime c)
        = false := by simp [cutoffTime]
    rw [hirr, Bool.and_false]

/-- Claim C2 (counterexample): with the wildcard filter, a direct-child file
whose modification time equals the run clock is not deleted and no deletion
is attempted: it is counted skipped and survives, so wildcard-mode deletion
of files is not unconditional. -/
theorem wildcard_file_cex :
    clean_directory ⟨["*"], 24, 1000000⟩
        (.isDir (.cons (.file "recent.txt" 1000000 false false) .nil)) =
      (oneSkippedFile,
       .isDir (.cons (.file "recent.txt" 1000000 false false) .nil)) := rfl

/-- Claim C2 (amended): in wildcard mode a direct-child file has a deletion
attempted iff `_is_file_old_enough` holds — the wildcard bypasses only the
extension filter, not the age gate; a file that is not old enough is counted
skipped and survives. -/
theorem wildcard_file_age_gated (c : FileCleaner)
    (h : c.target_extensions.contains "*" = true)
    (name : String) (mtime : Int) (sf uf : Bool) :
    clean_top_item c (.file name mtime sf uf) =
      (if is_file_old_enough c sf mtime then
        (if uf then (oneFailedFile, some (.file name mtime sf uf))
         else (oneDeletedFile, none))
       else (oneSkippedFile, some (.file name mtime sf uf))) := by
  have hsd : should_delete_file c name sf mtime = is_file_old_enough c sf mtime := by
    simp only [should_delete_file]
    rw [h]
    simp
  simp only [clean_top_item, clean_item_recursive, hsd]

/-- Witness for the amended C2 at a concrete wildcard configuration. -/
theorem wildcard_file_age_gated_witness :
    clean_top_item ⟨["*"], 24, 1000000⟩ (.file "a.txt" 0 false false) =
      (if is_file_old_enough ⟨["*"], 24, 1000000⟩ false 0 then
        (if false then (oneFailedFile, some (.file "a.txt" 0 false false))
         else (oneDeletedFile, none))
       else (oneSkippedFile, some (.file "a.txt" 0 false false))) :=
  wildcard_file_age_gated ⟨["*"], 24, 1000000⟩ (by decide) "a.txt" 0 false false

/-- Claim C3: in filtered mode a visited subdirectory is removed iff
re-listing it after its own subtree was processed finds it empty (stated for
a successful `rmdir`); and a subdirectory whose re-listed contents are
non-empty is always left in place, holding exactly the surviving entries. -/
theorem recursive_dir_removed_iff_empty (c : FileCleaner) (name : String)
    (cs : EntryList) (rf tf : Bool) :
    ((clean_item_recursive c (.dir name cs false tf)).2 = none ↔
      (clean_list_recursive c cs).2.isEmpty = true) ∧
    ((clean_list_recursive c cs).2.isEmpty = false →
      (clean_item_recursive c (.dir name cs rf tf)).2 =
        some (.dir name (clean_list_recursive c cs).2 rf tf)) := by
  constructor
  · by_cases hemp : (clean_list_recursive c cs).2.isEmpty = true
    · simp [clean_item_recursive, hemp]
    · simp only [Bool.not_eq_true] at hemp
      simp [clean_item_recursive, hemp]
  · intro hemp
    simp [clean_item_recursive, hemp]

/-- Witness for C3: a subdirectory still holding a skipped recent file is
left in place with that file. -/
theorem recursive_dir_removed_iff_empty_witness :
    (clean_item_recursive ⟨["pdf"], 24, 0⟩
        (.dir "sub" (.cons (.file "a.pdf" 0 false false) .nil) false false)).2 =
      some (.dir "sub" (.cons (.file "a.pdf" 0 false false) .nil) false false) :=
  (recursive_dir_removed_iff_empty ⟨["pdf"], 24, 0⟩ "sub"
      (.cons (.file "a.pdf" 0 false false) .nil) false false).2 (by decide)

/-- Claim C4 (counterexample): a subdirectory that is empty after processing
and whose `rmdir` raises does not increment `failed_dirs`; the `except
OSError` branch of `_clean_directory_recursive` only logs, and the directory
is left in place. -/
theorem empty_dir_rmdir_fail_cex :
    (clean_item_recursive ⟨["pdf"], 24, 0⟩
        (.dir "sub" .nil true false)).1.failed_dirs = 0 ∧
    (clean_item_recursive ⟨["pdf"], 24, 0⟩ (.dir "sub" .nil true false)).2 =
      some (.dir "sub" .nil true false) := ⟨rfl, rfl⟩

/-- Claim C4 (amended): when a subdirectory is empty after its subtree is
processed but `rmdir` fails, no counter changes at all — the result is
exactly the subtree's counters and the empty directory survives. -/
theorem empty_dir_rmdir_fail_uncounted (c : FileCleaner) (name : String)
    (cs : EntryList) (tf : Bool)
    (h : (clean_list_recursive c cs).2.isEmpty = true) :
    clean_item_recursive c (.dir name cs true tf) =
      ((clean_list_recursive c cs).1,
       some (.dir name (clean_list_recursive c cs).2 true tf)) := by
  simp [clean_item_recursive, h]

/-- Witness for the amended C4 on a concretely empty subdirectory. -/
theorem empty_dir_rmdir_fail_uncounted_witness :
    clean_item_recursive ⟨["pdf"], 24, 0⟩ (.dir "sub" .nil true false) =
      ((clean_list_recursive ⟨["pdf"], 24, 0⟩ .nil).1,
       some (.dir "sub" (clean_list_recursive ⟨["pdf"], 24, 0⟩ .nil).2 true false)) :=
  empty_dir_rmdir_fail_uncounted ⟨["pdf"], 24, 0⟩ "sub" .nil false (by decide)

/-- Claim C5: in wildcard mode a direct child directory of the root is
removed as one whole subtree, never recursed into: the outcome is the same
for every possible contents (recently-modified files included) — success
contributes exactly one `deleted_dirs`, failure exactly one `failed_dirs`,
and no per-file counter changes either way. -/
theorem wildcard_dir_wholesale (c : FileCleaner)
    (h : c.target_extensions.contains "*" = true)
    (name : String) (cs : EntryList) (rf tf : Bool) :
    clean_top_item c (.dir name cs rf tf) =
      (if tf then (oneFailedDir, some (.dir name cs rf tf))
       else (oneDeletedDir, none)) := by
  simp only [clean_top_item, h, if_true]

/-- Witness for C5: a wildcard root removes a subdirectory holding a file
modified at the run clock itself. -/
theorem wildcard_dir_wholesale_witness :
    clean_top_item ⟨["*"], 24, 1000000⟩
        (.dir "sub" (.cons (.file "recent.txt" 1000000 false false) .nil) false false) =
      (if false then
        (oneFailedDir,
         some (.dir "sub" (.cons (.file "recent.txt" 1000000 false false) .nil) false false))
       else (oneDeletedDir, none)) :=
  wildcard_dir_wholesale ⟨["*"], 24, 1000000⟩ (by decide) "sub"
    (.cons (.file "recent.txt" 1000000 false false) .nil) false false

/-- Claim C6: when the stat call fails, `_is_file_old_enough` returns false
without raising, so the file is never deleted; in both traversal modes the
file is counted skipped and no failed counter changes. -/
theorem stat_failure_fail_closed (c : FileCleaner) (name : String) (mtime : Int)
    (uf : Bool) :
    is_file_old_enough c true mtime = false ∧
    clean_item_recursive c (.file name mtime true uf) =
      (oneSkippedFile, some (.file name mtime true uf)) ∧
    clean_top_item c (.file name mtime true uf) =
      (oneSkippedFile, some (.file name mtime true uf)) := by
  have hold : is_file_old_enough c true mtime = false := by simp [is_file_old_enough]
  have hsd : should_delete_file c name true mtime = false := by
    simp [should_delete_file, hold]
  refine ⟨hold, ?_, ?_⟩ <;> simp [clean_item_recursive, clean_top_item, hsd]

/-- Claim C7 (counterexample): the configured string "-5" is parsed by
`int()` and retained, so the engine's cutoff is not always positive. -/
theorem cleanup_hour_nonpositive_cex :
    load_cleanup_hour (some "-5") = -5 ∧ ¬(0 < load_cleanup_hour (some "-5")) := by
  decide

/-- Claim C7 (amended): a missing value, the empty string, or a non-numeric
string falls back to the default 24; any string that `int()` parses is
retained as-is, whether positive or not. -/
theorem cleanup_hour_fallback :
    load_cleanup_hour none = 24 ∧
    load_cleanup_hour (some "") = 24 ∧
    (∀ v : String, v ≠ "" → pyIntParse v = none → load_cleanup_hour (some v) = 24) ∧
    (∀ (v : String) (n : Int), v ≠ "" → pyIntParse v = some n →
      load_cleanup_hour (some v) = n) := by
  refine ⟨by decide, by decide, ?_, ?_⟩
  · intro v hne hp
    simp [load_cleanup_hour, get_config_value, hne, hp]
  · intro v n hne hp
    simp [load_cleanup_hour, get_config_value, hne, hp]

/-- Witness for the amended C7: fallback on a non-numeric string, retention
of a negative one. -/
theorem cleanup_hour_fallback_witness :
    load_cleanup_hour (some "invalid") = 24 ∧ load_cleanup_hour (some "-5") = -5 :=
  ⟨cleanup_hour_fallback.2.2.1 "invalid" (by decide) (by decide),
   cleanup_hour_fallback.2.2.2 "-5" (-5) (by decide) (by decide)⟩

/-- Claim C8: per-entry counter discipline over one root traversal: every
processed file contributes to exactly one of the three file counters (their
sum equals the number of files processed), every processed directory to at
most one of the two directory counters (a directory left in place is the
"skipped" outcome, which has no counter), the counters are natural numbers
(hence non-negative), and they are the sums of these per-entry
contributions. -/
theorem counters_partition (c : FileCleaner) (cs : EntryList) :
    fileSum (clean_directory c (.isDir cs)).1 = filesProcessedTopList c cs ∧
    dirSum (clean_directory c (.isDir cs)).1 ≤ dirsProcessedTopList c cs := by
  constructor
  · simpa [clean_directory] using fileSum_top_list c cs
  · simpa [clean_directory] using dirSum_top_list c cs

/-- Claim C9 (counterexample): a root holding a single recent file: after the
first run no eligible file remains (the surviving file fails
`_should_delete_file`), yet the second run's result is not all-zero — its
`skipped_files` counter is 1. -/
theorem second_run_cex :
    should_delete_file ⟨["pdf"], 24, 1000000⟩ "recent.pdf" false 1000000 = false ∧
    (clean_directory ⟨["pdf"], 24, 1000000⟩
        (clean_directory ⟨["pdf"], 24, 1000000⟩
          (.isDir (.cons (.file "recent.pdf" 1000000 false false) .nil))).2).1.skipped_files
      = 1 :=
  ⟨by decide, rfl⟩

/-- Claim C9 (amended): when every OS call succeeds, running
`clean_directory` twice in a row with the same engine (same run clock) gives
a second run that deletes nothing and fails nothing: its result is zero on
all four deleted/failed counters, its `skipped_files` is the number of files
the first run left behind, and the filesystem does not change further; so the
second-run result is all-zero iff the first run left no files at all. -/
theorem second_run_no_actions (c : FileCleaner) (cs : EntryList)
    (h : cleanFlagsList cs = true) :
    clean_directory c (clean_directory c (.isDir cs)).2 =
      (skipOnly (rootFiles (clean_directory c (.isDir cs)).2),
       (clean_directory c (.isDir cs)).2) := by
  have hpost := post_stable_top_list c cs h
  have hfix := stable_fix_top_list c (clean_top_list c cs).2 hpost
  simp [clean_directory, rootFiles, hfix]

/-- Witness for the amended C9: one old file deleted in the first run, second
run all-zero. -/
theorem second_run_no_actions_witness :
    clean_directory ⟨["pdf"], 24, 1000000⟩
        (clean_directory ⟨["pdf"], 24, 1000000⟩
          (.isDir (.cons (.file "old.pdf" 0 false false) .nil))).2 =
      (skipOnly (rootFiles (clean_directory ⟨["pdf"], 24, 1000000⟩
          (.isDir (.cons (.file "old.pdf" 0 false false) .nil))).2),
       (clean_directory ⟨["pdf"], 24, 1000000⟩
          (.isDir (.cons (.file "old.pdf" 0 false false) .nil))).2) :=
  second_run_no_actions ⟨["pdf"], 24, 1000000⟩
    (.cons (.file "old.pdf" 0 false false) .nil) (by decide)

/-- Claim C10: the configured root itself is never deleted: cleaning an
existing directory root always yields a state that is still a directory, in
both modes and even when the run empties it — only entries below the root are
ever removed. -/
theorem root_never_deleted (c : FileCleaner) (cs : EntryList) :
    (∃ cs', (clean_directory c (.isDir cs)).2 = RootState.isDir cs') ∧
    (clean_directory c (.isDir EntryList.nil)).2 = RootState.isDir EntryList.nil :=
  ⟨⟨(clean_top_list c cs).2, rfl⟩, rfl⟩

end Pyfilecleaner
